import Mathlib

/-!
Verification of the karaf feature/repository reconciliation modules.

The development shallowly embeds the two Python modules `karaf_feature.py`
and `karaf_repo.py`. External command execution is modelled by an explicit
`EngineState`: a script of pending command results that `run_command`
consumes in order, together with a log of the command lines issued and of
the sleeps performed. `module.fail_json` terminates the run, which is
modelled with `Except String`: `Except.error msg` is a fatal outcome with
message `msg`, `Except.ok` is the value passed to `module.exit_json` or
returned to the caller.

The Python string primitives used by the modules (`str.split`,
`str.strip`, `str.replace` with one-character patterns, substring search)
are implemented here by structural recursion over `List Char`, so that
every definition evaluates inside the kernel.
-/

set_option autoImplicit false

/-- Split a character list at every character satisfying `p`, keeping empty
pieces; the char-level engine behind the Python `str.split` variants. -/
def splitIf (p : Char → Bool) : List Char → List (List Char)
  | [] => [[]]
  | a :: rest =>
    if p a then [] :: splitIf p rest
    else
      match splitIf p rest with
      | [] => [[a]]
      | g :: gs => (a :: g) :: gs

/-- Find the first occurrence of `sep` in a character list, returning the
part before it and the part after it; `none` when `sep` does not occur. -/
def breakOn (sep : List Char) : List Char → Option (List Char × List Char)
  | [] => if sep = [] then some ([], []) else none
  | a :: rest =>
    if sep.isPrefixOf (a :: rest) then some ([], (a :: rest).drop sep.length)
    else
      match breakOn sep rest with
      | none => none
      | some (pre, post) => some (a :: pre, post)

/-- Python `str.strip()` on a character list: drop whitespace at both ends. -/
def trimChars (l : List Char) : List Char :=
  ((l.dropWhile Char.isWhitespace).reverse.dropWhile Char.isWhitespace).reverse

/-- Python `s.strip()`. -/
def pystrip (s : String) : String :=
  String.mk (trimChars s.data)

/-- Python `s.split(c)` for a one-character separator: split at every
occurrence, keeping empty pieces. -/
def pysplitChar (c : Char) (s : String) : List String :=
  (splitIf (fun a => a = c) s.data).map String.mk

/-- Python `s.split()` with no argument: split on whitespace and discard
the empty tokens. -/
def pysplit (line : String) : List String :=
  ((splitIf Char.isWhitespace line.data).filter (fun g => g ≠ [])).map String.mk

/-- Python `sub in s` substring test. -/
def pyContains (sub s : String) : Bool :=
  (breakOn sub.data s.data).isSome

/-- Python `s.replace(c, d)` for one-character pattern and replacement:
substitute every occurrence of the character `c` by `d`. -/
def replaceChar (c d : Char) (s : String) : String :=
  String.mk (s.data.map (fun a => if a = c then d else a))

/-- Result of one external command invocation: exit code, stdout, stderr. -/
structure CmdResult where
  rc : Int
  out : String
  err : String
deriving DecidableEq, Repr

/-- The explicit state of the external world: the remaining scripted command
results, the list of command lines issued so far, and the sleeps performed. -/
structure EngineState where
  script : List CmdResult
  log : List String
  sleeps : List Nat
deriving DecidableEq, Repr

/-- Model of `module.run_command(cmd)`: record the issued command line and
consume the next scripted result (a harmless default when the script is
exhausted; claims always supply a long enough script). -/
def run_command (cmd : String) (s : EngineState) : CmdResult × EngineState :=
  match s.script with
  | [] => (⟨0, "", ""⟩, ⟨[], s.log ++ [cmd], s.sleeps⟩)
  | r :: rest => (r, ⟨rest, s.log ++ [cmd], s.sleeps⟩)

/-- Model of `time.sleep(n)`: record the wait. -/
def time_sleep (n : Nat) (s : EngineState) : EngineState :=
  ⟨s.script, s.log, s.sleeps ++ [n]⟩

/-- A single-quote character as a string (used when assembling the client
command lines, which quote the console statement). -/
def squo : String := String.singleton (Char.ofNat 39)

/-- First-some choice on options; used to state last-wins lookup facts. -/
def oor {α : Type} : Option α → Option α → Option α
  | some a, _ => some a
  | none, o => o

/-- Python dict assignment `d[k] = v` on an association list: replace the
value in place when the key is present, otherwise append the binding. -/
def dictInsert {α : Type} (k : String) (v : α) : List (String × α) → List (String × α)
  | [] => [(k, v)]
  | (k2, v2) :: rest => if k = k2 then (k, v) :: rest else (k2, v2) :: dictInsert k v rest

/-- Python dict lookup `d[k]` / `k in d` on an association list. -/
def dictLookup {α : Type} (k : String) : List (String × α) → Option α
  | [] => none
  | (k2, v) :: rest => if k = k2 then some v else dictLookup k rest

/-- Python `os.path.join(a, b)` for a relative posix `b`. -/
def os_path_join (a b : String) : String :=
  if a = "" then b
  else if a.data.getLast? = some (Char.ofNat 47) then a ++ b
  else a ++ "/" ++ b

namespace KarafFeature

/-- Embedding of `PACKAGE_STATE_MAP` of karaf_feature.py. -/
def PACKAGE_STATE_MAP (state : String) : String :=
  if state = "present" then "install"
  else if state = "absent" then "uninstall"
  else ""

def FEATURE_STATE_UNINSTALLED : String := "Uninstalled"

/-- Embedding of `CLIENT_KARAF_COMMAND.format(bin, sub)`, the format string being
the base path followed by the single-quoted console statement. -/
def CLIENT_KARAF_COMMAND (bin sub : String) : String :=
  bin ++ " " ++ squo ++ "feature:" ++ sub ++ squo

/-- Embedding of `CLIENT_KARAF_COMMAND_WITH_ARGS.format(bin, sub, args)`. -/
def CLIENT_KARAF_COMMAND_WITH_ARGS (bin sub args : String) : String :=
  bin ++ " " ++ squo ++ "feature:" ++ sub ++ " " ++ args ++ squo

/-- Embedding of `parse_error` of karaf_feature.py: the text after the first occurrence
of the marker `reason: `, stripped; the whole string when the marker is
absent (Python `str.index` raising `ValueError`). -/
def parse_error (string : String) : String :=
  match breakOn "reason: ".data string.data with
  | none => string
  | some (_, post) => pystrip (String.mk post)

/-- One parsed feature listing record: fields 0, 1 and 3 of a listing line. -/
structure FeatureRecord where
  name : String
  version : String
  state : String
deriving DecidableEq, Repr

/-- The per-line tokenizing step of the loop in `is_feature_installed`
(lines 171-178): split on whitespace, skip lines with fewer than 4 tokens,
otherwise take fields 0, 1 and 3 (stripped; further fields ignored). -/
def parseFeatureLine (line : String) : Option FeatureRecord :=
  let feature_data := pysplit line
  if feature_data.length < 4 then none
  else some ⟨pystrip (feature_data.getD 0 ""), pystrip (feature_data.getD 1 ""),
             pystrip (feature_data.getD 3 "")⟩

/-- The feature listing parser: `parseFeatureLine` over every line. -/
def parseFeatureListing (raw : String) : List FeatureRecord :=
  (pysplitChar (Char.ofNat 10) raw).filterMap parseFeatureLine

/-- The matching step of the loop in `is_feature_installed` (lines 180-191)
applied to one parsed record, `feature_version` being the already normalized
desired version (empty string for "no version"). -/
def featureRecordSatisfies (feature_name feature_version : String) (r : FeatureRecord) : Bool :=
  if r.name ≠ feature_name then false
  else if r.state ≠ FEATURE_STATE_UNINSTALLED then
    let version := replaceChar (Char.ofNat 95) (Char.ofNat 46) r.version
    if feature_version ≠ "" then decide (version = feature_version) else true
  else false

/-- One full loop iteration of `is_feature_installed` on one line. -/
def is_feature_line_installed (feature_name feature_version : String) (line : String) : Bool :=
  match parseFeatureLine line with
  | none => false
  | some r => featureRecordSatisfies feature_name feature_version r

/-- The normalization applied to the desired version in
`is_feature_installed`: a `None` version becomes the empty string, and
every `-` is replaced by `.` (lines 163-168). -/
def normalizeDesiredVersion (feature_version : Option String) : String :=
  replaceChar (Char.ofNat 45) (Char.ofNat 46) (feature_version.getD "")

/-- Embedding of `is_feature_installed` of karaf_feature.py: run the listing command and
scan its stdout line by line, returning at the first satisfying record.
The exit code and stderr of the listing command are not inspected. -/
def is_feature_installed (client_bin_with_args feature_name : String)
    (feature_version : Option String) (s : EngineState) : Bool × EngineState :=
  let cmd := CLIENT_KARAF_COMMAND client_bin_with_args "list -i --no-format"
  let (res, s1) := run_command cmd s
  let lines := pysplitChar (Char.ofNat 10) res.out
  let fv := normalizeDesiredVersion feature_version
  (lines.any (is_feature_line_installed feature_name fv), s1)

/-- Embedding of `install_feature` of karaf_feature.py: build the install command
(appending `/version` when a non-empty version is given), fail with the
extracted reason on non-zero exit, then re-query and fail with
`Feature fails to install` when the feature is still absent. -/
def install_feature (client_bin_with_args feature_name : String)
    (feature_version : Option String) (s : EngineState) :
    EngineState × Except String (Bool × String × String × String) :=
  let full_qualified_name :=
    if (feature_version.getD "") ≠ "" then feature_name ++ "/" ++ feature_version.getD ""
    else feature_name
  let cmd := CLIENT_KARAF_COMMAND_WITH_ARGS client_bin_with_args
    (PACKAGE_STATE_MAP "present") full_qualified_name
  let (res, s1) := run_command cmd s
  if res.rc ≠ 0 then (s1, Except.error (parse_error res.out))
  else
    let (is_installed, s2) := is_feature_installed client_bin_with_args feature_name feature_version s1
    if ¬is_installed then (s2, Except.error "Feature fails to install")
    else (s2, Except.ok (true, cmd, res.out, res.err))

/-- Embedding of `uninstall_feature` of karaf_feature.py, symmetric to `install_feature`. -/
def uninstall_feature (client_bin_with_args feature_name : String)
    (feature_version : Option String) (s : EngineState) :
    EngineState × Except String (Bool × String × String × String) :=
  let full_qualified_name :=
    if (feature_version.getD "") ≠ "" then feature_name ++ "/" ++ feature_version.getD ""
    else feature_name
  let cmd := CLIENT_KARAF_COMMAND_WITH_ARGS client_bin_with_args
    (PACKAGE_STATE_MAP "absent") full_qualified_name
  let (res, s1) := run_command cmd s
  if res.rc ≠ 0 then (s1, Except.error (parse_error res.out))
  else
    let (is_installed, s2) := is_feature_installed client_bin_with_args feature_name feature_version s1
    if is_installed then (s2, Except.error "Feature fails to uninstall")
    else (s2, Except.ok (true, cmd, res.out, res.err))

/-- Embedding of `check_client_bin_path` of karaf_feature.py, the file system passed in
as the two predicates `isfile` and `isdir`. `Except.error` models the
raised exception; note the `else` is attached to the `isdir` test, so a
directory without a `bin/client` file falls through and the function
returns Python `None`, modelled as `Except.ok none`. -/
def check_client_bin_path (isfile isdir : String → Bool) (client_bin : String) :
    Except String (Option String) :=
  if isfile client_bin then Except.ok (some client_bin)
  else if isdir client_bin then
    let test := os_path_join client_bin "bin/client"
    if isfile test then Except.ok (some test) else Except.ok none
  else Except.error ("client_bin parameter not supported: " ++ client_bin)

/-- The fields passed to `module.exit_json` by `main`. -/
structure FeatureResult where
  changed : Bool
  cmd : String
  name : String
  state : String
  stdout : String
  stderr : String
deriving DecidableEq, Repr

/-- Lines 256-266 of `main` in karaf_feature.py: the reconcile core, after
argument collection and client path resolution. -/
def main_reconcile (client_bin_with_args name : String) (version : Option String)
    (state : String) (s : EngineState) : EngineState × Except String FeatureResult :=
  let (is_installed, s1) := is_feature_installed client_bin_with_args name version s
  if state = "present" ∧ ¬is_installed then
    match install_feature client_bin_with_args name version s1 with
    | (s2, Except.error m) => (s2, Except.error m)
    | (s2, Except.ok (changed, cmd, out, err)) =>
        (s2, Except.ok ⟨changed, cmd, name, state, out, err⟩)
  else if state = "absent" ∧ is_installed then
    match uninstall_feature client_bin_with_args name version s1 with
    | (s2, Except.error m) => (s2, Except.error m)
    | (s2, Except.ok (changed, cmd, out, err)) =>
        (s2, Except.ok ⟨changed, cmd, name, state, out, err⟩)
  else (s1, Except.ok ⟨false, "", name, state, "", ""⟩)

end KarafFeature

namespace KarafRepo

def STATE_PRESENT : String := "present"
def STATE_ABSENT : String := "absent"
def STATE_REFRESH : String := "refresh"

/-- Embedding of `PACKAGE_STATE_MAP` of karaf_repo.py. -/
def PACKAGE_STATE_MAP (state : String) : String :=
  if state = "present" then "repo-add"
  else if state = "absent" then "repo-remove"
  else if state = "refresh" then "repo-refresh"
  else ""

/-- Embedding of `CLIENT_KARAF_COMMAND_WITH_ARGS.format(bin, sub, args)` of karaf_repo.py
(same format string as in karaf_feature.py). -/
def CLIENT_KARAF_COMMAND_WITH_ARGS (bin sub args : String) : String :=
  bin ++ " " ++ squo ++ "feature:" ++ sub ++ " " ++ args ++ squo

/-- Embedding of `run_with_check` of karaf_repo.py: run the command; on non-zero exit
code or when stdout contains `Error executing command` or
`Command not found`, fail with the raw stdout as the message; otherwise
return stdout. -/
def run_with_check (cmd : String) (s : EngineState) : EngineState × Except String String :=
  let (res, s1) := run_command cmd s
  if res.rc ≠ 0 ∨ pyContains "Error executing command" res.out
      ∨ pyContains "Command not found" res.out then
    (s1, Except.error res.out)
  else (s1, Except.ok res.out)

/-- One parsed repository listing record. -/
structure RepoRecord where
  name : String
  url : String
deriving DecidableEq, Repr

/-- The dictionary-building loop of `get_existing_repos` (lines 105-121)
applied to an already captured listing output: split into lines, skip every
line that does not tokenize into exactly 2 fields, and assign
`existing_repos[repo_url] = record` in order (later lines overwrite). -/
def parseRepoListing (out : String) : List (String × RepoRecord) :=
  (pysplitChar (Char.ofNat 10) out).foldl
    (fun existing_repos line =>
      let split := pysplit line
      if split.length ≠ 2 then existing_repos
      else
        let repo_name := pystrip (split.getD 0 "")
        let repo_url := pystrip (split.getD 1 "")
        dictInsert repo_url ⟨repo_name, repo_url⟩ existing_repos)
    []

/-- The command line issued by `get_existing_repos`. -/
def repoListCmd (client_bin_with_args : String) : String :=
  client_bin_with_args ++ " \"feature:repo-list --no-format\""

/-- Embedding of `get_existing_repos` of karaf_repo.py: run the repo listing through
`run_with_check` and build the url-keyed mapping. -/
def get_existing_repos (client_bin_with_args : String) (s : EngineState) :
    EngineState × Except String (List (String × RepoRecord)) :=
  match run_with_check (repoListCmd client_bin_with_args) s with
  | (s1, Except.error m) => (s1, Except.error m)
  | (s1, Except.ok out) => (s1, Except.ok (parseRepoListing out))

/-- The result dictionary built by `add_repo` / `remove_repo` /
`refresh_repo`; the default result of `main` carries no `out` and `cmd`
keys, modelled by `none`. -/
structure RepoResult where
  changed : Bool
  original_message : String
  message : String
  out : Option String
  cmd : Option String
deriving DecidableEq, Repr

/-- Embedding of `add_repo` of karaf_repo.py: run `repo-add` with check, then re-list
and fail when the url is still absent. -/
def add_repo (client_bin_with_args url : String) (s : EngineState) :
    EngineState × Except String RepoResult :=
  let cmd := CLIENT_KARAF_COMMAND_WITH_ARGS client_bin_with_args
    (PACKAGE_STATE_MAP STATE_PRESENT) url
  match run_with_check cmd s with
  | (s1, Except.error m) => (s1, Except.error m)
  | (s1, Except.ok out) =>
    let result : RepoResult := ⟨true, "", "", some out, some cmd⟩
    match get_existing_repos client_bin_with_args s1 with
    | (s2, Except.error m) => (s2, Except.error m)
    | (s2, Except.ok repos) =>
      if dictLookup url repos = none then
        (s2, Except.error ("Repo (\"" ++ url ++ "\") did not install"))
      else (s2, Except.ok result)

/-- Embedding of `remove_repo` of karaf_repo.py: run `repo-remove` with check, sleep a
fixed 20 seconds, re-list, and fail when the url is still present. -/
def remove_repo (client_bin_with_args url : String) (s : EngineState) :
    EngineState × Except String RepoResult :=
  let cmd := CLIENT_KARAF_COMMAND_WITH_ARGS client_bin_with_args
    (PACKAGE_STATE_MAP STATE_ABSENT) url
  match run_with_check cmd s with
  | (s1, Except.error m) => (s1, Except.error m)
  | (s1, Except.ok out) =>
    let result : RepoResult := ⟨true, "", "", some out, some cmd⟩
    let s2 := time_sleep 20 s1
    match get_existing_repos client_bin_with_args s2 with
    | (s3, Except.error m) => (s3, Except.error m)
    | (s3, Except.ok repos) =>
      if (dictLookup url repos).isSome then
        (s3, Except.error ("Repo (\"" ++ url ++ "\") is still installed"))
      else (s3, Except.ok result)

/-- Embedding of `refresh_repo` of karaf_repo.py: run `repo-refresh` with check and
return the changed result directly, with no verification query. -/
def refresh_repo (client_bin_with_args url : String) (s : EngineState) :
    EngineState × Except String RepoResult :=
  let cmd := CLIENT_KARAF_COMMAND_WITH_ARGS client_bin_with_args
    (PACKAGE_STATE_MAP STATE_REFRESH) url
  match run_with_check cmd s with
  | (s1, Except.error m) => (s1, Except.error m)
  | (s1, Except.ok out) => (s1, Except.ok ⟨true, "", "", some out, some cmd⟩)

/-- Embedding of `parse_error` of karaf_repo.py (identical to the one in
karaf_feature.py, and never called by the repository module). -/
def parse_error (string : String) : String :=
  match breakOn "reason: ".data string.data with
  | none => string
  | some (_, post) => pystrip (String.mk post)

/-- Embedding of `check_client_bin_path` of karaf_repo.py (identical to the one in
karaf_feature.py; see that doc comment for the dangling `else`). -/
def check_client_bin_path (isfile isdir : String → Bool) (client_bin : String) :
    Except String (Option String) :=
  if isfile client_bin then Except.ok (some client_bin)
  else if isdir client_bin then
    let test := os_path_join client_bin "bin/client"
    if isfile test then Except.ok (some test) else Except.ok none
  else Except.error ("client_bin parameter not supported: " ++ client_bin)

/-- Lines 259-277 of `main` in karaf_repo.py: the reconcile core, after
argument collection and client path resolution. -/
def main_reconcile (client_bin_with_args url state : String) (s : EngineState) :
    EngineState × Except String RepoResult :=
  match get_existing_repos client_bin_with_args s with
  | (s1, Except.error m) => (s1, Except.error m)
  | (s1, Except.ok existing_repos) =>
    if state = STATE_PRESENT ∧ dictLookup url existing_repos = none then
      add_repo client_bin_with_args url s1
    else if state = STATE_ABSENT ∧ (dictLookup url existing_repos).isSome then
      remove_repo client_bin_with_args url s1
    else if state = STATE_REFRESH then
      if dictLookup url existing_repos = none then
        (s1, Except.error ("The given repository (\"" ++ url
          ++ "\") is not available and can therefore not be refreshed"))
      else refresh_repo client_bin_with_args url s1
    else (s1, Except.ok ⟨false, "", "", none, none⟩)

/-- The list of (name, url) pairs of the exactly-2-token lines of a listing
output, in order; used to specify `parseRepoListing`. -/
def repoLinePairs (out : String) : List (String × String) :=
  (pysplitChar (Char.ofNat 10) out).filterMap (fun line =>
    let split := pysplit line
    if split.length = 2 then some (pystrip (split.getD 0 ""), pystrip (split.getD 1 ""))
    else none)

/-- The record of the last pair whose url component is `u`, if any. -/
def lastMatch (u : String) : List (String × String) → Option RepoRecord
  | [] => none
  | p :: ps => oor (lastMatch u ps) (if p.2 = u then some ⟨p.1, p.2⟩ else none)

/-- Folding `dictInsert` of (name, url) pairs over an accumulator; the
specification-side counterpart of the loop in `parseRepoListing`. -/
def insertAll (acc : List (String × RepoRecord)) :
    List (String × String) → List (String × RepoRecord)
  | [] => acc
  | p :: ps => insertAll (dictInsert p.2 ⟨p.1, p.2⟩ acc) ps

end KarafRepo

/-! ## Helper lemmas -/

theorem run_command_snd_log (cmd : String) (s : EngineState) :
    (run_command cmd s).2.log = s.log ++ [cmd] := by
  cases s with
  | mk script log sleeps => cases script <;> rfl

theorem run_command_snd_sleeps (cmd : String) (s : EngineState) :
    (run_command cmd s).2.sleeps = s.sleeps := by
  cases s with
  | mk script log sleeps => cases script <;> rfl

theorem time_sleep_log (n : Nat) (s : EngineState) : (time_sleep n s).log = s.log := rfl

theorem time_sleep_sleeps (n : Nat) (s : EngineState) :
    (time_sleep n s).sleeps = s.sleeps ++ [n] := rfl

theorem oor_assoc {α : Type} (a b c : Option α) : oor (oor a b) c = oor a (oor b c) := by
  cases a <;> rfl

theorem oor_none_left {α : Type} (o : Option α) : oor none o = o := rfl

theorem dictLookup_dictInsert {α : Type} (u k : String) (v : α) (l : List (String × α)) :
    dictLookup u (dictInsert k v l) = if u = k then some v else dictLookup u l := by
  induction l with
  | nil => rfl
  | cons p rest ih =>
    rcases p with ⟨k2, v2⟩
    by_cases hk : k = k2
    · subst hk
      simp only [dictInsert, if_pos rfl, dictLookup]
      by_cases hu : u = k <;> simp [hu]
    · by_cases hu : u = k2
      · subst hu
        have huk : u ≠ k := fun h => hk h.symm
        simp [dictInsert, dictLookup, hk, huk]
      · simp [dictInsert, dictLookup, hk, hu, ih]

theorem mem_dictInsert {α : Type} (q : String × α) (k : String) (v : α)
    (l : List (String × α)) (h : q ∈ dictInsert k v l) : q = (k, v) ∨ q ∈ l := by
  induction l with
  | nil =>
    simp [dictInsert] at h
    exact Or.inl h
  | cons p rest ih =>
    rcases p with ⟨k2, v2⟩
    by_cases hk : k = k2
    · subst hk
      simp [dictInsert] at h
      rcases h with h | h
      · exact Or.inl h
      · exact Or.inr (List.mem_cons_of_mem _ h)
    · simp [dictInsert, hk] at h
      rcases h with h | h
      · exact Or.inr (by simp [h])
      · rcases ih h with h2 | h2
        · exact Or.inl h2
        · exact Or.inr (List.mem_cons_of_mem _ h2)

theorem keys_dictInsert {α : Type} (k : String) (v : α) (l : List (String × α)) :
    (dictInsert k v l).map Prod.fst =
      if k ∈ l.map Prod.fst then l.map Prod.fst else l.map Prod.fst ++ [k] := by
  induction l with
  | nil => rfl
  | cons p rest ih =>
    rcases p with ⟨k2, v2⟩
    by_cases hk : k = k2
    · subst hk
      simp [dictInsert]
    · simp [dictInsert, hk, ih, Ne.symm hk]
      by_cases hm : k ∈ rest.map Prod.fst <;> simp [hm, hk]

theorem nodup_keys_dictInsert {α : Type} (k : String) (v : α) (l : List (String × α))
    (h : (l.map Prod.fst).Nodup) : ((dictInsert k v l).map Prod.fst).Nodup := by
  rw [keys_dictInsert]
  by_cases hm : k ∈ l.map Prod.fst
  · simpa [hm] using h
  · simp only [hm, if_false]
    simpa [List.nodup_append, hm] using h

namespace KarafRepo

theorem insertAll_lookup (u : String) (ps : List (String × String))
    (acc : List (String × RepoRecord)) :
    dictLookup u (insertAll acc ps) = oor (lastMatch u ps) (dictLookup u acc) := by
  induction ps generalizing acc with
  | nil => rfl
  | cons p ps ih =>
    rcases p with ⟨n, k⟩
    simp only [insertAll, lastMatch, ih, dictLookup_dictInsert, oor_assoc]
    congr 1
    by_cases hu : u = k
    · subst hu
      simp [oor]
    · have hku : ¬k = u := fun h => hu h.symm
      simp [hu, hku, oor]

theorem insertAll_url_inv (ps : List (String × String)) (acc : List (String × RepoRecord))
    (h : ∀ p ∈ acc, (Prod.snd p).url = p.1) :
    ∀ q ∈ insertAll acc ps, (Prod.snd q).url = q.1 := by
  induction ps generalizing acc with
  | nil => exact h
  | cons p ps ih =>
    rcases p with ⟨n, k⟩
    refine ih (dictInsert k ⟨n, k⟩ acc) ?_
    intro q hq
    rcases mem_dictInsert q k ⟨n, k⟩ acc hq with h2 | h2
    · subst h2
      rfl
    · exact h q h2

theorem insertAll_keys_nodup (ps : List (String × String)) (acc : List (String × RepoRecord))
    (h : (acc.map Prod.fst).Nodup) : ((insertAll acc ps).map Prod.fst).Nodup := by
  induction ps generalizing acc with
  | nil => exact h
  | cons p ps ih => exact ih _ (nodup_keys_dictInsert p.2 ⟨p.1, p.2⟩ acc h)

theorem parseRepoListing_eq_insertAll (out : String) :
    parseRepoListing out = insertAll [] (repoLinePairs out) := by
  have main : ∀ (ls : List String) (acc : List (String × RepoRecord)),
      ls.foldl
        (fun existing_repos line =>
          let split := pysplit line
          if split.length ≠ 2 then existing_repos
          else
            dictInsert (pystrip (split.getD 1 ""))
              ⟨pystrip (split.getD 0 ""), pystrip (split.getD 1 "")⟩ existing_repos)
        acc
      = insertAll acc (ls.filterMap (fun line =>
          let split := pysplit line
          if split.length = 2 then
            some (pystrip (split.getD 0 ""), pystrip (split.getD 1 ""))
          else none)) := by
    intro ls
    induction ls with
    | nil => intro acc; rfl
    | cons l ls ih =>
      intro acc
      by_cases h2 : (pysplit l).length = 2
      · have hne : ¬((pysplit l).length ≠ 2) := fun h => h h2
        simp only [List.foldl_cons, List.filterMap_cons, if_neg hne, if_pos h2]
        simp only [insertAll]
        exact ih _
      · simp only [List.foldl_cons, List.filterMap_cons, if_pos h2, if_neg h2]
        exact ih _
  exact main (pysplitChar (Char.ofNat 10) out) []

end KarafRepo

theorem is_feature_installed_snd (cba name : String) (v : Option String) (s : EngineState) :
    (KarafFeature.is_feature_installed cba name v s).2
      = (run_command (KarafFeature.CLIENT_KARAF_COMMAND cba "list -i --no-format") s).2 := by
  simp only [KarafFeature.is_feature_installed]

theorem run_with_check_fst (cmd : String) (s : EngineState) :
    (KarafRepo.run_with_check cmd s).1 = (run_command cmd s).2 := by
  simp only [KarafRepo.run_with_check]
  rcases h : run_command cmd s with ⟨res, s1⟩
  split <;> rfl

theorem get_existing_repos_fst (cba : String) (s : EngineState) :
    (KarafRepo.get_existing_repos cba s).1
      = (run_command (KarafRepo.repoListCmd cba) s).2 := by
  have h1 := run_with_check_fst (KarafRepo.repoListCmd cba) s
  simp only [KarafRepo.get_existing_repos]
  rcases h : KarafRepo.run_with_check (KarafRepo.repoListCmd cba) s with ⟨s1, e⟩
  rw [h] at h1
  cases e <;> exact h1

theorem refresh_repo_fst (cba url : String) (s : EngineState) :
    (KarafRepo.refresh_repo cba url s).1
      = (run_command (KarafRepo.CLIENT_KARAF_COMMAND_WITH_ARGS cba
          (KarafRepo.PACKAGE_STATE_MAP KarafRepo.STATE_REFRESH) url) s).2 := by
  have h1 := run_with_check_fst (KarafRepo.CLIENT_KARAF_COMMAND_WITH_ARGS cba
    (KarafRepo.PACKAGE_STATE_MAP KarafRepo.STATE_REFRESH) url) s
  simp only [KarafRepo.refresh_repo]
  rcases h : KarafRepo.run_with_check (KarafRepo.CLIENT_KARAF_COMMAND_WITH_ARGS cba
      (KarafRepo.PACKAGE_STATE_MAP KarafRepo.STATE_REFRESH) url) s with ⟨s1, e⟩
  rw [h] at h1
  cases e <;> exact h1

/-! ## Claims -/

/-- C1, counterexample: the feature inspector `is_feature_installed` does
not treat a failing listing command as a hard failure. On a scripted
listing result with exit code 1 whose output contains the marker
`Error executing command`, the inspection still returns `false`
(resource absent) instead of failing. -/
theorem C1_counterexample :
    (CmdResult.mk 1 "Error executing command" "").rc ≠ 0
    ∧ pyContains "Error executing command" (CmdResult.mk 1 "Error executing command" "").out = true
    ∧ (KarafFeature.is_feature_installed "cb" "camel-jms" none
        ⟨[CmdResult.mk 1 "Error executing command" ""], [], []⟩).1 = false :=
  ⟨by decide, by decide, by decide⟩

/-- C1, amended: the hard-failure guarantee holds for the repository
inspector `get_existing_repos` (through `run_with_check`): a non-zero exit
code or an error marker in the output makes the inspection terminate as a
fatal failure carrying the raw output. The feature inspector
`is_feature_installed` performs no such check: its answer depends only on
the captured stdout, never on the exit code, so it can answer
`false` (absent) for a failed listing. -/
theorem C1_claim :
    (∀ (cba : String) (r : CmdResult) (rest : List CmdResult) (log : List String)
        (sl : List Nat),
      (r.rc ≠ 0 ∨ pyContains "Error executing command" r.out = true
        ∨ pyContains "Command not found" r.out = true) →
      (KarafRepo.get_existing_repos cba ⟨r :: rest, log, sl⟩).2 = Except.error r.out)
    ∧ (∀ (cba name : String) (v : Option String) (r : CmdResult) (rest : List CmdResult)
        (log : List String) (sl : List Nat),
      (KarafFeature.is_feature_installed cba name v ⟨r :: rest, log, sl⟩).1
        = (pysplitChar (Char.ofNat 10) r.out).any
            (KarafFeature.is_feature_line_installed name
              (KarafFeature.normalizeDesiredVersion v))) := by
  constructor
  · intro cba r rest log sl h
    simp [KarafRepo.get_existing_repos, KarafRepo.run_with_check, run_command, h]
  · intro cba name v r rest log sl
    rfl

/-- C1, witness for the amended theorem at a concrete failing listing. -/
theorem C1_witness :
    (KarafRepo.get_existing_repos "cb"
        ⟨[CmdResult.mk 1 "Error executing command" ""], [], []⟩).2
      = Except.error "Error executing command" :=
  C1_claim.1 "cb" (CmdResult.mk 1 "Error executing command" "") [] [] []
    (Or.inl (by decide))

/-- C2: evaluation of `check_client_bin_path` (both modules) at the
divergence point: a `client_bin` that is an existing directory containing
no `bin/client` file. The function falls through its dangling `else` and
returns Python `None` (`Except.ok none`), issuing no configuration
error. -/
theorem C2_claim :
    KarafFeature.check_client_bin_path (fun _ => false) (fun p => p = "/opt/karaf")
        "/opt/karaf" = Except.ok none
    ∧ KarafRepo.check_client_bin_path (fun _ => false) (fun p => p = "/opt/karaf")
        "/opt/karaf" = Except.ok none :=
  ⟨rfl, rfl⟩

/-- C3, counterexample: a repository command failure whose output contains
the marker `reason: ` is reported with the full raw output, not with the
extracted reason, contradicting the claim that the Error Reason Extractor
is applied to repository command failures alike. -/
theorem C3_counterexample :
    (KarafRepo.run_with_check "cmd"
        ⟨[CmdResult.mk 1 "Error: boom reason: disk full" ""], [], []⟩).2
      = Except.error "Error: boom reason: disk full"
    ∧ KarafRepo.parse_error "Error: boom reason: disk full" = "disk full"
    ∧ ("Error: boom reason: disk full" : String) ≠ "disk full" :=
  ⟨rfl, rfl, by decide⟩

/-- C3, amended: feature install/uninstall invocation failures (non-zero
exit code) report `parse_error` of the raw output — the text after the
`reason: ` marker when present, the full output otherwise. Repository
command failures (`run_with_check`, covering every repository mutating and
query invocation) report the full raw output unconditionally, without
applying the extractor. -/
theorem C3_claim :
    (∀ (cba name : String) (v : Option String) (r : CmdResult) (rest : List CmdResult)
        (log : List String) (sl : List Nat), r.rc ≠ 0 →
      (KarafFeature.install_feature cba name v ⟨r :: rest, log, sl⟩).2
        = Except.error (KarafFeature.parse_error r.out))
    ∧ (∀ (cba name : String) (v : Option String) (r : CmdResult) (rest : List CmdResult)
        (log : List String) (sl : List Nat), r.rc ≠ 0 →
      (KarafFeature.uninstall_feature cba name v ⟨r :: rest, log, sl⟩).2
        = Except.error (KarafFeature.parse_error r.out))
    ∧ (∀ (cmd : String) (r : CmdResult) (rest : List CmdResult) (log : List String)
        (sl : List Nat),
      (r.rc ≠ 0 ∨ pyContains "Error executing command" r.out = true
        ∨ pyContains "Command not found" r.out = true) →
      (KarafRepo.run_with_check cmd ⟨r :: rest, log, sl⟩).2 = Except.error r.out) := by
  refine ⟨?_, ?_, ?_⟩
  · intro cba name v r rest log sl h
    simp [KarafFeature.install_feature, run_command, h]
  · intro cba name v r rest log sl h
    simp [KarafFeature.uninstall_feature, run_command, h]
  · intro cmd r rest log sl h
    simp [KarafRepo.run_with_check, run_command, h]

/-- C3, witness at a concrete failing install whose output carries the
marker. -/
theorem C3_witness :
    (KarafFeature.install_feature "cb" "f" none
        ⟨[CmdResult.mk 1 "boom reason: disk full" ""], [], []⟩).2
      = Except.error (KarafFeature.parse_error "boom reason: disk full") :=
  C3_claim.1 "cb" "f" none (CmdResult.mk 1 "boom reason: disk full" "") [] [] []
    (by decide)

/-- C4: the installed-at-version check compares the desired version with
every `-` replaced by `.` against the observed version with every `_`
replaced by `.`; for a line parsing to a record whose name matches and
whose state is not `Uninstalled`, the check succeeds exactly when the
normalized versions are equal. In particular desired version
`2.18.1-SNAPSHOT` matches an observed listing record reporting version
`2.18.1.SNAPSHOT` with state `Installed`. -/
theorem C4_claim :
    (∀ (desired obs st n line : String),
      KarafFeature.parseFeatureLine line = some ⟨n, obs, st⟩ →
      st ≠ KarafFeature.FEATURE_STATE_UNINSTALLED →
      KarafFeature.normalizeDesiredVersion (some desired) ≠ "" →
      (KarafFeature.is_feature_line_installed n
          (KarafFeature.normalizeDesiredVersion (some desired)) line = true
        ↔ replaceChar (Char.ofNat 95) (Char.ofNat 46) obs
            = replaceChar (Char.ofNat 45) (Char.ofNat 46) desired))
    ∧ (KarafFeature.is_feature_installed "cb" "camel-jms" (some "2.18.1-SNAPSHOT")
        ⟨[CmdResult.mk 0 "camel-jms 2.18.1.SNAPSHOT x Installed" ""], [], []⟩).1 = true := by
  constructor
  · intro desired obs st n line hparse hst hne
    simp only [KarafFeature.is_feature_line_installed, hparse,
      KarafFeature.featureRecordSatisfies]
    rw [if_neg (not_not_intro rfl), if_pos hst, if_pos hne]
    simp [KarafFeature.normalizeDesiredVersion]
  · decide

/-- C4, witness for the general normalization statement at the concrete
snapshot-version listing line. -/
theorem C4_witness :
    KarafFeature.is_feature_line_installed "camel-jms"
        (KarafFeature.normalizeDesiredVersion (some "2.18.1-SNAPSHOT"))
        "camel-jms 2.18.1.SNAPSHOT x Installed" = true :=
  (C4_claim.1 "2.18.1-SNAPSHOT" "2.18.1.SNAPSHOT" "Installed" "camel-jms"
      "camel-jms 2.18.1.SNAPSHOT x Installed" (by decide) (by decide) (by decide)).mpr
    (by decide)

/-- C8: the feature listing parser keeps exactly the lines with at least 4
whitespace tokens, each producing one record from tokens 0, 1 and 3 (the
tokens beyond index 3 ignored); a listing with a 2-token header line and a
5-token data line yields exactly the one record of the data line. -/
theorem C8_claim :
    (∀ raw : String, KarafFeature.parseFeatureListing raw
      = ((pysplitChar (Char.ofNat 10) raw).filter
            (fun l => 4 ≤ (pysplit l).length)).map
          (fun l => ⟨pystrip ((pysplit l).getD 0 ""), pystrip ((pysplit l).getD 1 ""),
                     pystrip ((pysplit l).getD 3 "")⟩))
    ∧ KarafFeature.parseFeatureListing "hdr x\nname 1.0 y Started extra"
      = [⟨"name", "1.0", "Started"⟩] := by
  constructor
  · intro raw
    unfold KarafFeature.parseFeatureListing
    have main : ∀ ls : List String, ls.filterMap KarafFeature.parseFeatureLine
        = (ls.filter (fun l => 4 ≤ (pysplit l).length)).map
            (fun l => (⟨pystrip ((pysplit l).getD 0 ""), pystrip ((pysplit l).getD 1 ""),
                       pystrip ((pysplit l).getD 3 "")⟩ : KarafFeature.FeatureRecord)) := by
      intro ls
      induction ls with
      | nil => rfl
      | cons l ls ih =>
        by_cases h : (pysplit l).length < 4
        · have h2 : ¬(4 ≤ (pysplit l).length) := by omega
          simp [KarafFeature.parseFeatureLine, h, h2, ih]
        · have h2 : 4 ≤ (pysplit l).length := by omega
          simp [KarafFeature.parseFeatureLine, h, h2, ih]
    exact main _
  · decide

/-- C9: calling the installed check with desired version the empty string
behaves identically to calling it with no version at all, and with that
empty version a record with matching name is accepted exactly when its
state differs from `Uninstalled`, regardless of its version field. -/
theorem C9_claim :
    (∀ (cba name : String) (s : EngineState),
      KarafFeature.is_feature_installed cba name (some "") s
        = KarafFeature.is_feature_installed cba name none s)
    ∧ (∀ (n obs st : String),
      KarafFeature.featureRecordSatisfies n "" ⟨n, obs, st⟩
        = !(st == KarafFeature.FEATURE_STATE_UNINSTALLED)) := by
  constructor
  · intro cba name s
    rfl
  · intro n obs st
    by_cases h : st = KarafFeature.FEATURE_STATE_UNINSTALLED <;>
      simp [KarafFeature.featureRecordSatisfies, h]

/-- C5: reconciling to present a feature that the listing already reports
installed, or to absent one it reports not installed, exits with
`changed = false`, and the engine state shows exactly one issued command,
the listing query; likewise for the repository reconciler with a url
present (resp. absent) in the pre-check listing. -/
theorem C5_claim :
    (∀ (cba name : String) (ver : Option String) (s : EngineState),
      (KarafFeature.is_feature_installed cba name ver s).1 = true →
      KarafFeature.main_reconcile cba name ver "present" s
        = ((KarafFeature.is_feature_installed cba name ver s).2,
           Except.ok ⟨false, "", name, "present", "", ""⟩)
      ∧ (KarafFeature.is_feature_installed cba name ver s).2.log
        = s.log ++ [KarafFeature.CLIENT_KARAF_COMMAND cba "list -i --no-format"])
    ∧ (∀ (cba name : String) (ver : Option String) (s : EngineState),
      (KarafFeature.is_feature_installed cba name ver s).1 = false →
      KarafFeature.main_reconcile cba name ver "absent" s
        = ((KarafFeature.is_feature_installed cba name ver s).2,
           Except.ok ⟨false, "", name, "absent", "", ""⟩)
      ∧ (KarafFeature.is_feature_installed cba name ver s).2.log
        = s.log ++ [KarafFeature.CLIENT_KARAF_COMMAND cba "list -i --no-format"])
    ∧ (∀ (cba url : String) (s s1 : EngineState)
        (repos : List (String × KarafRepo.RepoRecord)),
      KarafRepo.get_existing_repos cba s = (s1, Except.ok repos) →
      ((dictLookup url repos).isSome = true →
        KarafRepo.main_reconcile cba url "present" s
          = (s1, Except.ok ⟨false, "", "", none, none⟩))
      ∧ (dictLookup url repos = none →
        KarafRepo.main_reconcile cba url "absent" s
          = (s1, Except.ok ⟨false, "", "", none, none⟩))
      ∧ s1.log = s.log ++ [KarafRepo.repoListCmd cba]) := by
  refine ⟨?_, ?_, ?_⟩
  · intro cba name ver s h
    have hlog : (KarafFeature.is_feature_installed cba name ver s).2.log
        = s.log ++ [KarafFeature.CLIENT_KARAF_COMMAND cba "list -i --no-format"] := by
      rw [is_feature_installed_snd, run_command_snd_log]
    refine ⟨?_, hlog⟩
    simp only [KarafFeature.main_reconcile]
    rcases hi : KarafFeature.is_feature_installed cba name ver s with ⟨b, s1⟩
    rw [hi] at h
    cases b
    · simp at h
    · simp
  · intro cba name ver s h
    have hlog : (KarafFeature.is_feature_installed cba name ver s).2.log
        = s.log ++ [KarafFeature.CLIENT_KARAF_COMMAND cba "list -i --no-format"] := by
      rw [is_feature_installed_snd, run_command_snd_log]
    refine ⟨?_, hlog⟩
    simp only [KarafFeature.main_reconcile]
    rcases hi : KarafFeature.is_feature_installed cba name ver s with ⟨b, s1⟩
    rw [hi] at h
    cases b
    · simp
    · simp at h
  · intro cba url s s1 repos h
    refine ⟨?_, ?_, ?_⟩
    · intro hin
      have hne : ¬(dictLookup url repos = none) := by
        intro hn
        rw [hn] at hin
        simp at hin
      simp [KarafRepo.main_reconcile, h, KarafRepo.STATE_PRESENT, KarafRepo.STATE_ABSENT,
        KarafRepo.STATE_REFRESH, hne]
    · intro hnone
      simp [KarafRepo.main_reconcile, h, KarafRepo.STATE_PRESENT, KarafRepo.STATE_ABSENT,
        KarafRepo.STATE_REFRESH, hnone]
    · have h2 := get_existing_repos_fst cba s
      rw [h] at h2
      have h3 : s1 = (run_command (KarafRepo.repoListCmd cba) s).2 := h2
      rw [h3, run_command_snd_log]

/-- C5, witness: a concrete already-installed feature reconciled to
present yields `changed = false` with only the listing query issued. -/
theorem C5_witness :
    KarafFeature.main_reconcile "cb" "camel-jms" none "present"
        ⟨[CmdResult.mk 0 "camel-jms 2.18.1 x Installed" ""], [], []⟩
      = (⟨[], [KarafFeature.CLIENT_KARAF_COMMAND "cb" "list -i --no-format"], []⟩,
         Except.ok ⟨false, "", "camel-jms", "present", "", ""⟩) := by
  have h := (C5_claim.1 "cb" "camel-jms" none
    ⟨[CmdResult.mk 0 "camel-jms 2.18.1 x Installed" ""], [], []⟩ (by decide)).1
  rw [h]
  rfl

/-- C6: a repository reconcile with desired state refresh fails fatally,
with only the pre-check listing issued, when the url is absent from the
parsed repo list; when the url is present, the repo-refresh command is
issued unconditionally as the only further command — no verification
query follows it and no sleep is performed. -/
theorem C6_claim :
    ∀ (cba url : String) (s s1 : EngineState)
      (repos : List (String × KarafRepo.RepoRecord)),
    KarafRepo.get_existing_repos cba s = (s1, Except.ok repos) →
    (dictLookup url repos = none →
      KarafRepo.main_reconcile cba url "refresh" s
        = (s1, Except.error ("The given repository (\"" ++ url
            ++ "\") is not available and can therefore not be refreshed"))
      ∧ s1.log = s.log ++ [KarafRepo.repoListCmd cba])
    ∧ ((dictLookup url repos).isSome = true →
      (KarafRepo.main_reconcile cba url "refresh" s).1.log
        = s.log ++ [KarafRepo.repoListCmd cba,
            KarafRepo.CLIENT_KARAF_COMMAND_WITH_ARGS cba
              (KarafRepo.PACKAGE_STATE_MAP KarafRepo.STATE_REFRESH) url]
      ∧ (KarafRepo.main_reconcile cba url "refresh" s).1.sleeps = s.sleeps) := by
  intro cba url s s1 repos h
  have hs1 : s1 = (run_command (KarafRepo.repoListCmd cba) s).2 := by
    have h2 := get_existing_repos_fst cba s
    rw [h] at h2
    exact h2
  constructor
  · intro hnone
    refine ⟨?_, by rw [hs1, run_command_snd_log]⟩
    simp [KarafRepo.main_reconcile, h, KarafRepo.STATE_PRESENT, KarafRepo.STATE_ABSENT,
      KarafRepo.STATE_REFRESH, hnone]
  · intro hin
    have hne : ¬(dictLookup url repos = none) := by
      intro hn
      rw [hn] at hin
      simp at hin
    have hmain : KarafRepo.main_reconcile cba url "refresh" s
        = KarafRepo.refresh_repo cba url s1 := by
      simp [KarafRepo.main_reconcile, h, KarafRepo.STATE_PRESENT, KarafRepo.STATE_ABSENT,
        KarafRepo.STATE_REFRESH, hne]
    rw [hmain, refresh_repo_fst]
    constructor
    · rw [run_command_snd_log, hs1, run_command_snd_log]
      simp
    · rw [run_command_snd_sleeps, hs1, run_command_snd_sleeps]

/-- C6, witness: refreshing a url absent from a concrete listing fails
with only the listing query issued. -/
theorem C6_witness :
    KarafRepo.main_reconcile "cb" "w" "refresh" ⟨[CmdResult.mk 0 "n u" ""], [], []⟩
      = (⟨[], [KarafRepo.repoListCmd "cb"], []⟩,
         Except.error "The given repository (\"w\") is not available and can therefore not be refreshed") := by
  have h := ((C6_claim "cb" "w" ⟨[CmdResult.mk 0 "n u" ""], [], []⟩
    ⟨[], [KarafRepo.repoListCmd "cb"], []⟩ (KarafRepo.parseRepoListing "n u") rfl).1
    (by decide)).1
  exact h

/-- C7, counterexample: the verification-failure message of a repository
removal is not the literal `Repo is still installed`; it interpolates the
url, as `Repo ("u") is still installed` for url `u`. -/
theorem C7_counterexample :
    (KarafRepo.remove_repo "cb" "u"
        ⟨[CmdResult.mk 0 "" "", CmdResult.mk 0 "n u" ""], [], []⟩).2
      = Except.error "Repo (\"u\") is still installed"
    ∧ ("Repo (\"u\") is still installed" : String) ≠ "Repo is still installed" :=
  ⟨rfl, by decide⟩

/-- C7, amended: after a successful repo-remove command the engine sleeps
exactly once for 20 seconds and issues exactly one verification repo-list
query; if the url is still in the parsed verification listing the pass
fails with message `Repo ("<url>") is still installed`, and if it is
absent the result carries `changed = true` with the executed command text
and captured output. -/
theorem C7_claim :
    ∀ (cba url : String) (s s1 : EngineState) (out : String),
    KarafRepo.run_with_check (KarafRepo.CLIENT_KARAF_COMMAND_WITH_ARGS cba
        (KarafRepo.PACKAGE_STATE_MAP KarafRepo.STATE_ABSENT) url) s
      = (s1, Except.ok out) →
    ((KarafRepo.remove_repo cba url s).1.sleeps = s.sleeps ++ [20]
      ∧ (KarafRepo.remove_repo cba url s).1.log
        = s.log ++ [KarafRepo.CLIENT_KARAF_COMMAND_WITH_ARGS cba
            (KarafRepo.PACKAGE_STATE_MAP KarafRepo.STATE_ABSENT) url,
            KarafRepo.repoListCmd cba])
    ∧ (∀ (s3 : EngineState) (repos : List (String × KarafRepo.RepoRecord)),
      KarafRepo.get_existing_repos cba (time_sleep 20 s1) = (s3, Except.ok repos) →
      ((dictLookup url repos).isSome = true →
        (KarafRepo.remove_repo cba url s).2
          = Except.error ("Repo (\"" ++ url ++ "\") is still installed"))
      ∧ (dictLookup url repos = none →
        (KarafRepo.remove_repo cba url s).2
          = Except.ok ⟨true, "", "", some out,
              some (KarafRepo.CLIENT_KARAF_COMMAND_WITH_ARGS cba
                (KarafRepo.PACKAGE_STATE_MAP KarafRepo.STATE_ABSENT) url)⟩)) := by
  intro cba url s s1 out h
  have hs1 : s1 = (run_command (KarafRepo.CLIENT_KARAF_COMMAND_WITH_ARGS cba
      (KarafRepo.PACKAGE_STATE_MAP KarafRepo.STATE_ABSENT) url) s).2 := by
    have h2 := run_with_check_fst (KarafRepo.CLIENT_KARAF_COMMAND_WITH_ARGS cba
      (KarafRepo.PACKAGE_STATE_MAP KarafRepo.STATE_ABSENT) url) s
    rw [h] at h2
    exact h2
  have hmain : KarafRepo.remove_repo cba url s
      = (match KarafRepo.get_existing_repos cba (time_sleep 20 s1) with
         | (s3, Except.error m) => (s3, Except.error m)
         | (s3, Except.ok repos) =>
           if (dictLookup url repos).isSome then
             (s3, Except.error ("Repo (\"" ++ url ++ "\") is still installed"))
           else
             (s3, Except.ok ⟨true, "", "", some out,
               some (KarafRepo.CLIENT_KARAF_COMMAND_WITH_ARGS cba
                 (KarafRepo.PACKAGE_STATE_MAP KarafRepo.STATE_ABSENT) url)⟩)) := by
    simp [KarafRepo.remove_repo, h]
  constructor
  · rcases hg : KarafRepo.get_existing_repos cba (time_sleep 20 s1) with ⟨s3, e⟩
    have hs3 : s3 = (run_command (KarafRepo.repoListCmd cba) (time_sleep 20 s1)).2 := by
      have h2 := get_existing_repos_fst cba (time_sleep 20 s1)
      rw [hg] at h2
      exact h2
    have hfst : (KarafRepo.remove_repo cba url s).1 = s3 := by
      rw [hmain, hg]
      cases e
      · rfl
      · dsimp only
        split <;> rfl
    constructor
    · rw [hfst, hs3, run_command_snd_sleeps, time_sleep_sleeps, hs1, run_command_snd_sleeps]
    · rw [hfst, hs3, run_command_snd_log, time_sleep_log, hs1, run_command_snd_log]
      simp
  · intro s3 repos hg
    rw [hmain, hg]
    constructor
    · intro hin
      simp [hin]
    · intro hnone
      have hfalse : (dictLookup url repos).isSome = false := by
        rw [hnone]
        rfl
      simp [hfalse]

/-- C7, witness: a concrete removal whose verification listing still shows
the url sleeps 20 seconds once and fails with the interpolated message. -/
theorem C7_witness :
    (KarafRepo.remove_repo "cb" "u"
        ⟨[CmdResult.mk 0 "" "", CmdResult.mk 0 "n u" ""], [], []⟩).1.sleeps = [20]
    ∧ (KarafRepo.remove_repo "cb" "u"
        ⟨[CmdResult.mk 0 "" "", CmdResult.mk 0 "n u" ""], [], []⟩).2
      = Except.error "Repo (\"u\") is still installed" := by
  have h := C7_claim "cb" "u" ⟨[CmdResult.mk 0 "" "", CmdResult.mk 0 "n u" ""], [], []⟩
    ⟨[CmdResult.mk 0 "n u" ""],
     [KarafRepo.CLIENT_KARAF_COMMAND_WITH_ARGS "cb"
        (KarafRepo.PACKAGE_STATE_MAP KarafRepo.STATE_ABSENT) "u"], []⟩ "" rfl
  refine ⟨h.1.1.trans (by decide), ?_⟩
  exact (h.2 ⟨[], [KarafRepo.CLIENT_KARAF_COMMAND_WITH_ARGS "cb"
      (KarafRepo.PACKAGE_STATE_MAP KarafRepo.STATE_ABSENT) "u",
      KarafRepo.repoListCmd "cb"], [20]⟩
    (KarafRepo.parseRepoListing "n u") rfl).1 (by decide)

theorem oor_none_right {α : Type} (o : Option α) : oor o none = o := by
  cases o <;> rfl

/-- C10: in the mapping built by the repository listing parser, every
entry is keyed by the url field of its record, the keys are free of
duplicates (so each url has exactly one entry), and looking a url up
yields the record of the last exactly-2-token line carrying that url
(later lines overwrite earlier ones). -/
theorem C10_claim :
    ∀ (out u : String),
    (∀ p ∈ KarafRepo.parseRepoListing out, (Prod.snd p).url = p.1)
    ∧ ((KarafRepo.parseRepoListing out).map Prod.fst).Nodup
    ∧ dictLookup u (KarafRepo.parseRepoListing out)
        = KarafRepo.lastMatch u (KarafRepo.repoLinePairs out) := by
  intro out u
  refine ⟨?_, ?_, ?_⟩
  · rw [KarafRepo.parseRepoListing_eq_insertAll]
    exact KarafRepo.insertAll_url_inv _ _ (by intro p hp; cases hp)
  · rw [KarafRepo.parseRepoListing_eq_insertAll]
    exact KarafRepo.insertAll_keys_nodup _ _ (by simp)
  · rw [KarafRepo.parseRepoListing_eq_insertAll, KarafRepo.insertAll_lookup]
    exact oor_none_right _

/-- C10, witness: with two 2-token lines sharing url `u`, the mapping has
nodup keys and maps `u` to the record of the later line. -/
theorem C10_witness :
    ((KarafRepo.parseRepoListing "r1 u\nr2 u\nr3 w").map Prod.fst).Nodup
    ∧ dictLookup "u" (KarafRepo.parseRepoListing "r1 u\nr2 u\nr3 w")
        = some ⟨"r2", "u"⟩ :=
  ⟨(C10_claim "r1 u\nr2 u\nr3 w" "u").2.1,
   ((C10_claim "r1 u\nr2 u\nr3 w" "u").2.2).trans (by decide)⟩
